import Mathlib

/-!
Client-certificate authentication annotations (`authtls`).

A shallow embedding of `core/pkg/ingress/annotations/authtls/main.go` and the
properties of `authTLS.Parse`.

Go values are embedded as follows.

* An `error` is a `GoError`; the Go pair `(v, err)` is a Lean pair whose second
  component is `Option GoError` (`none` is the `nil` error).
* A `*resolver.AuthSSLCert` is an `Option Cert` (`none` is the `nil` pointer).
* `int` is `Int`: `Parse` does no arithmetic on the depth.
* The functions `Parse` calls in other packages (`parser.GetStringAnnotation`,
  `parser.GetIntAnnotation`, `k8s.ParseNameNS`) are parameters, collected in
  `Imports`; they are functions of their arguments.
* The certificate resolver is the interface value held by `authTLS`.  `Parse`
  calls it at most once, and the run records the arguments of those calls.
-/

namespace AuthTLS

/-! ## Errors -/

/-- Go `error` values, as far as `Parse` builds or forwards them. -/
inductive GoError where
  /-- A plain error carrying a text, as made by `errors.New`. -/
  | errorString (text : String)
  /-- The value `errors.Wrap(cause, msg)` of `github.com/pkg/errors`. -/
  | Wrap (cause : GoError) (msg : String)
  /-- The struct literal `ing_errors.LocationDenied{Reason: r}`. -/
  | LocationDenied (Reason : GoError)
  /-- The value of the call `ing_errors.NewLocationDenied(reason)`. -/
  | NewLocationDenied (reason : String)
  deriving DecidableEq, Repr

namespace GoError

/-- Modelled from the spec: package `ing_errors` is not among the sources.  Both
the struct literal `LocationDenied{...}` and the constructor function
`NewLocationDenied` give an error of the "location denied" kind. -/
def isLocationDenied : GoError → Bool
  | LocationDenied _ => true
  | NewLocationDenied _ => true
  | _ => false

/-- Modelled from the spec: the fixed human-readable reason carried by an error
made with `NewLocationDenied`, which is the string handed to it. -/
def deniedMessage : GoError → Option String
  | NewLocationDenied reason => some reason
  | _ => none

/-- The `Reason` field of a `LocationDenied{Reason: r}` struct literal. -/
def Reason : GoError → Option GoError
  | LocationDenied r => some r
  | _ => none

/-- One step of the cause chain: the error that `errors.Wrap` was given. -/
def directCause : GoError → Option GoError
  | Wrap cause _ => some cause
  | _ => none

/-- The context message that `errors.Wrap` attached. -/
def wrapMessage : GoError → Option String
  | Wrap _ msg => some msg
  | _ => none

/-- The cause chain of an error: the error itself, then what it wraps, and so on. -/
def causeChain : GoError → List GoError
  | Wrap cause msg => Wrap cause msg :: causeChain cause
  | e => [e]

/-- The function `errors.Cause`: follow the cause chain to its end. -/
def Cause : GoError → GoError
  | Wrap cause _ => Cause cause
  | e => e

end GoError

/-! ## Constants and types of the package -/

/-- Name of the secret used for authentication. -/
def annotationAuthTLSSecret : String := "ingress.kubernetes.io/auth-tls-secret"

/-- Verify depth for cert authentication. -/
def annotationAuthTLSDepth : String := "ingress.kubernetes.io/auth-tls-verify-depth"

/-- Default verify depth. -/
def defaultAuthTLSDepth : Int := 1

/-- Error page to redirect to when authentication fails. -/
def annotationAuthTLSErrorpage : String := "ingress.kubernetes.io/auth-tls-error-page"

/-- The struct `AuthSSLConfig`.  `Cert` stands for `resolver.AuthSSLCert`, which
is declared in another package. -/
structure AuthSSLConfig (Cert : Type) where
  AuthSSLCert : Cert
  ValidationDepth : Int
  AuthErrorPage : String
  deriving DecidableEq, Repr

/-- The Go zero value `AuthSSLConfig{}`; `default` is the zero value of `Cert`. -/
def AuthSSLConfig.zero {Cert : Type} [Inhabited Cert] : AuthSSLConfig Cert :=
  { AuthSSLCert := default, ValidationDepth := 0, AuthErrorPage := "" }

/-- The interface `resolver.AuthCertificate`, with its one method. -/
structure AuthCertificate (Cert : Type) where
  GetAuthCertificate : String → Option Cert × Option GoError

/-- The struct `authTLS`. -/
structure authTLS (Cert : Type) where
  certResolver : AuthCertificate Cert

/-- The function `NewParser`. -/
def NewParser {Cert : Type} (resolver : AuthCertificate Cert) : authTLS Cert :=
  { certResolver := resolver }

/-- The functions of other packages that `Parse` calls, over an ingress type `Ing`. -/
structure Imports (Ing : Type) where
  /-- The function `parser.GetStringAnnotation(name, ing)`. -/
  GetStringAnnotation : String → Ing → String × Option GoError
  /-- The function `parser.GetIntAnnotation(name, ing)`. -/
  GetIntAnnotation : String → Ing → Int × Option GoError
  /-- The function `k8s.ParseNameNS(input)`, giving namespace, name and error. -/
  ParseNameNS : String → String × String × Option GoError

/-- How a call ends: it returns a value and an error, or it stops at the
dereference of a nil pointer. -/
inductive Outcome (α : Type) where
  | returned (value : α) (err : Option GoError)
  | nilDereference
  deriving DecidableEq, Repr

/-- A run of `Parse`: how it ended, and the arguments of the calls it made to
`certResolver.GetAuthCertificate`, in order. -/
structure ParseRun (Cert : Type) where
  outcome : Outcome (AuthSSLConfig Cert)
  resolverCalls : List String
  deriving DecidableEq, Repr

/-- The text of the error for a secret name that is empty or not well formed. -/
def emptySecretMessage : String := "an empty string is not a valid secret name"

/-! ## `Parse` -/

/-- The method `authTLS.Parse`. -/
def Parse {Ing Cert : Type} [Inhabited Cert] (p : Imports Ing) (a : authTLS Cert) (ing : Ing) :
    ParseRun Cert :=
  match p.GetStringAnnotation annotationAuthTLSSecret ing with
  | (_, some err) => { outcome := .returned AuthSSLConfig.zero (some err), resolverCalls := [] }
  | (tlsauthsecret, none) =>
    if tlsauthsecret = "" then
      { outcome := .returned AuthSSLConfig.zero (some (.NewLocationDenied emptySecretMessage)),
        resolverCalls := [] }
    else
      match (p.ParseNameNS tlsauthsecret).2.2 with
      | some _ =>
        { outcome := .returned AuthSSLConfig.zero (some (.NewLocationDenied emptySecretMessage)),
          resolverCalls := [] }
      | none =>
        let depthRead := p.GetIntAnnotation annotationAuthTLSDepth ing
        let tlsdepth : Int :=
          if depthRead.2 ≠ none ∨ depthRead.1 = 0 then defaultAuthTLSDepth else depthRead.1
        match a.certResolver.GetAuthCertificate tlsauthsecret with
        | (_, some err) =>
          { outcome := .returned AuthSSLConfig.zero
              (some (.LocationDenied (.Wrap err "error obtaining certificate"))),
            resolverCalls := [tlsauthsecret] }
        | (authCert, none) =>
          match p.GetStringAnnotation annotationAuthTLSSecret ing with
          | (_, some err) =>
            { outcome := .returned AuthSSLConfig.zero (some err),
              resolverCalls := [tlsauthsecret] }
          | (authTLSErrorPage, none) =>
            match authCert with
            | none => { outcome := .nilDereference, resolverCalls := [tlsauthsecret] }
            | some cert =>
              { outcome := .returned
                  { AuthSSLCert := cert, ValidationDepth := tlsdepth,
                    AuthErrorPage := authTLSErrorPage } none,
                resolverCalls := [tlsauthsecret] }

/-! ## A concrete annotation reader, identifier parser and resolver

`Parse` is stated over any `Imports`.  The definitions below give one instance,
over an ingress that is its list of annotations, for evaluating `Parse` on
concrete resources. -/

/-- An ingress resource, as far as `Parse` reads it: its annotations. -/
abbrev Ingress := List (String × String)

/-- The value stored under a key, when the key is present. -/
def lookupKey (name : String) : Ingress → Option String
  | [] => none
  | (k, v) :: rest => if k = name then some v else lookupKey name rest

/-- Modelled from the spec: the error of the reader for a key that is absent
(`AnnotationMissing`); package `ing_errors` is not among the sources. -/
def AnnotationMissing : GoError := .errorString "AnnotationMissing"

/-- Modelled from the spec: the error of the reader for a value that is malformed
for its type (`AnnotationMalformed`); package `ing_errors` is not among the sources. -/
def AnnotationMalformed (name : String) : GoError :=
  .errorString ("AnnotationMalformed: " ++ name)

/-- Modelled from the spec: `parser.GetStringAnnotation` is not among the sources.
`getString(key, resource) -> (string, error)`: the value of the key, or the
error "key absent". -/
def readString (name : String) (ing : Ingress) : String × Option GoError :=
  match lookupKey name ing with
  | some v => (v, none)
  | none => ("", some AnnotationMissing)

/-- The number written by a list of decimal digits, read after `acc`. -/
def readDigits : List Char → Nat → Option Nat
  | [], acc => some acc
  | c :: cs, acc =>
    if 48 ≤ c.toNat ∧ c.toNat ≤ 57 then readDigits cs (10 * acc + (c.toNat - 48)) else none

/-- A decimal integer with an optional sign. -/
def readDecimal (s : String) : Option Int :=
  match s.data with
  | [] => none
  | '-' :: ds => if ds = [] then none else (readDigits ds 0).map (fun n => -(n : Int))
  | '+' :: ds => if ds = [] then none else (readDigits ds 0).map (fun n => (n : Int))
  | ds => (readDigits ds 0).map (fun n => (n : Int))

/-- Modelled from the spec: `parser.GetIntAnnotation` is not among the sources.
`getInt(key, resource) -> (int, error)`: the integer value of the key, or the
error "key absent" or "value malformed for type". -/
def readInt (name : String) (ing : Ingress) : Int × Option GoError :=
  match lookupKey name ing with
  | some v =>
    match readDecimal v with
    | some i => (i, none)
    | none => (0, some (AnnotationMalformed name))
  | none => (0, some AnnotationMissing)

/-- The pieces of a text between its slashes. -/
def splitSlash : List Char → List (List Char)
  | [] => [[]]
  | c :: cs =>
    match splitSlash cs with
    | [] => [[]]
    | piece :: pieces => if c = '/' then [] :: piece :: pieces else (c :: piece) :: pieces

/-- Modelled from the spec: `k8s.ParseNameNS` is not among the sources.
`parseNameNamespace(raw) -> (name, namespace, error)`: the reference must be a
`name` or a `namespace/name` pair; more than one slash, or an empty part, is an
error. -/
def readNameNS (input : String) : String × String × Option GoError :=
  match splitSlash input.data with
  | [name] =>
    if name = [] then ("", "", some (.errorString "invalid format")) else ("", ⟨name⟩, none)
  | [ns, name] =>
    if ns = [] ∨ name = [] then ("", "", some (.errorString "invalid format"))
    else (⟨ns⟩, ⟨name⟩, none)
  | _ => ("", "", some (.errorString "invalid format"))

/-- The concrete collaborators of `Parse` over `Ingress`. -/
def specImports : Imports Ingress :=
  { GetStringAnnotation := readString, GetIntAnnotation := readInt, ParseNameNS := readNameNS }

/-- A certificate handle for concrete runs: the name it was resolved from. -/
structure CertHandle where
  secret : String
  deriving DecidableEq, Repr

instance : Inhabited CertHandle := ⟨⟨""⟩⟩

/-- A resolver that knows the secrets of a list and returns a handle for each of
them; for any other name it fails with the given error. -/
def listResolver (known : List String) (failure : GoError) : AuthCertificate CertHandle :=
  { GetAuthCertificate := fun name =>
      if name ∈ known then (some ⟨name⟩, none) else (none, some failure) }

/-- A resolver that fails on every name. -/
def failingResolver (failure : GoError) : AuthCertificate CertHandle :=
  listResolver [] failure

/-- An ingress with the three annotations of the end-to-end example. -/
def exampleIngress : Ingress :=
  [(annotationAuthTLSSecret, "ns1/mycert"), (annotationAuthTLSDepth, "3"),
   (annotationAuthTLSErrorpage, "/403.html")]

/-- An ingress that carries only the secret annotation. -/
def secretOnlyIngress : Ingress := [(annotationAuthTLSSecret, "mycert")]

/-- An ingress whose secret annotation is absent; the other two are present. -/
def noSecretIngress : Ingress :=
  [(annotationAuthTLSDepth, "3"), (annotationAuthTLSErrorpage, "/403.html")]

/-- An ingress whose secret annotation is the empty string. -/
def emptySecretIngress : Ingress :=
  [(annotationAuthTLSSecret, ""), (annotationAuthTLSDepth, "3"),
   (annotationAuthTLSErrorpage, "/403.html")]

/-- An ingress whose secret annotation has more than one slash. -/
def malformedSecretIngress : Ingress :=
  [(annotationAuthTLSSecret, "a/b/c"), (annotationAuthTLSDepth, "3")]

/-- An ingress whose depth annotation is a negative integer. -/
def negativeDepthIngress : Ingress :=
  [(annotationAuthTLSSecret, "mycert"), (annotationAuthTLSDepth, "-2")]

/-- The error of the resolver in the concrete runs. -/
def secretNotFound : GoError := .errorString "secret not found"

/-- The error a call ended with: `some err` when it returned, with `err` the
returned error (`none` for `nil`), and `none` when it did not return. -/
def Outcome.err {α : Type} : Outcome α → Option (Option GoError)
  | .returned _ err => some err
  | .nilDereference => none

/-- A resolver that returns, for every name, a pointer to the zero value of the
certificate and no error. -/
def blankResolver : AuthCertificate CertHandle :=
  { GetAuthCertificate := fun _ => (some default, none) }

/-- A resolver that returns, for every name, the nil pointer and no error. -/
def nilResolver : AuthCertificate CertHandle :=
  { GetAuthCertificate := fun _ => (none, none) }

/-- The ingress of the end-to-end example with another depth and another error page. -/
def otherPageIngress : Ingress :=
  [(annotationAuthTLSSecret, "ns1/mycert"), (annotationAuthTLSDepth, "zero"),
   (annotationAuthTLSErrorpage, "/denied.html")]

/-- The ingress of the end-to-end example with another error page only. -/
def deniedPageIngress : Ingress :=
  [(annotationAuthTLSSecret, "ns1/mycert"), (annotationAuthTLSDepth, "3"),
   (annotationAuthTLSErrorpage, "/denied.html")]

/-! ## Properties of `Parse` -/

section Lemmas

variable {Ing Cert : Type} [Inhabited Cert]

/-- When the secret read fails, the run of `Parse` is fixed by the error. -/
theorem Parse_of_read_error (p : Imports Ing) (a : authTLS Cert) (ing : Ing) (s : String)
    (e : GoError) (h : p.GetStringAnnotation annotationAuthTLSSecret ing = (s, some e)) :
    Parse p a ing = { outcome := .returned AuthSSLConfig.zero (some e), resolverCalls := [] } := by
  simp only [Parse, h]

/-- When the secret is read as the empty string, the run of `Parse` is fixed. -/
theorem Parse_of_empty (p : Imports Ing) (a : authTLS Cert) (ing : Ing)
    (h : p.GetStringAnnotation annotationAuthTLSSecret ing = ("", none)) :
    Parse p a ing =
      { outcome := .returned AuthSSLConfig.zero (some (.NewLocationDenied emptySecretMessage)),
        resolverCalls := [] } := by
  simp [Parse, h]

/-- When the identifier parser rejects the secret, the run of `Parse` is fixed. -/
theorem Parse_of_rejected (p : Imports Ing) (a : authTLS Cert) (ing : Ing) (s : String)
    (e : GoError) (h : p.GetStringAnnotation annotationAuthTLSSecret ing = (s, none))
    (hs : s ≠ "") (hp : (p.ParseNameNS s).2.2 = some e) :
    Parse p a ing =
      { outcome := .returned AuthSSLConfig.zero (some (.NewLocationDenied emptySecretMessage)),
        resolverCalls := [] } := by
  simp [Parse, h, hs, hp]

/-- The run of `Parse` once the secret has passed the three checks. -/
theorem Parse_of_valid (p : Imports Ing) (a : authTLS Cert) (ing : Ing) (s : String)
    (h : p.GetStringAnnotation annotationAuthTLSSecret ing = (s, none))
    (hs : s ≠ "") (hp : (p.ParseNameNS s).2.2 = none) :
    Parse p a ing =
      match a.certResolver.GetAuthCertificate s with
      | (_, some err) =>
        { outcome := .returned AuthSSLConfig.zero
            (some (.LocationDenied (.Wrap err "error obtaining certificate"))),
          resolverCalls := [s] }
      | (none, none) => { outcome := .nilDereference, resolverCalls := [s] }
      | (some cert, none) =>
        { outcome := .returned
            { AuthSSLCert := cert,
              ValidationDepth :=
                if (p.GetIntAnnotation annotationAuthTLSDepth ing).2 ≠ none ∨
                    (p.GetIntAnnotation annotationAuthTLSDepth ing).1 = 0
                then defaultAuthTLSDepth else (p.GetIntAnnotation annotationAuthTLSDepth ing).1,
              AuthErrorPage := s } none,
          resolverCalls := [s] } := by
  simp only [Parse, h, if_neg hs, hp]
  rcases hr : a.certResolver.GetAuthCertificate s with ⟨c, _ | e⟩
  · cases c <;> rfl
  · cases c <;> rfl

/-- A run of `Parse` that returns without error has passed the three checks on
the secret and got a certificate from the resolver. -/
theorem Parse_success_inv (p : Imports Ing) (a : authTLS Cert) (ing : Ing)
    (cfg : AuthSSLConfig Cert) (h : (Parse p a ing).outcome = .returned cfg none) :
    ∃ s cert, p.GetStringAnnotation annotationAuthTLSSecret ing = (s, none) ∧ s ≠ "" ∧
      (p.ParseNameNS s).2.2 = none ∧
      a.certResolver.GetAuthCertificate s = (some cert, none) ∧
      cfg = { AuthSSLCert := cert,
              ValidationDepth :=
                if (p.GetIntAnnotation annotationAuthTLSDepth ing).2 ≠ none ∨
                    (p.GetIntAnnotation annotationAuthTLSDepth ing).1 = 0
                then defaultAuthTLSDepth else (p.GetIntAnnotation annotationAuthTLSDepth ing).1,
              AuthErrorPage := s } := by
  rcases hr : p.GetStringAnnotation annotationAuthTLSSecret ing with ⟨s, _ | e⟩
  · by_cases hs : s = ""
    · subst hs
      rw [Parse_of_empty p a ing hr] at h
      simp at h
    · rcases hp : (p.ParseNameNS s).2.2 with _ | e
      · rw [Parse_of_valid p a ing s hr hs hp] at h
        rcases hc : a.certResolver.GetAuthCertificate s with ⟨c, _ | e⟩
        · cases c with
          | none => simp [hc] at h
          | some cert =>
            simp only [hc, Outcome.returned.injEq, and_true] at h
            exact ⟨s, cert, rfl, hs, hp, hc, h.symm⟩
        · simp [hc] at h
      · rw [Parse_of_rejected p a ing s e hr hs hp] at h
        simp at h
  · rw [Parse_of_read_error p a ing s e hr] at h
    simp at h

/-- A run of `Parse` that returns an error returns the zero-value `AuthSSLConfig`
with it, and the error comes from one of the returns at lines 62, 66, 71 and 81. -/
theorem Parse_error_inv (p : Imports Ing) (a : authTLS Cert) (ing : Ing)
    (cfg : AuthSSLConfig Cert) (e : GoError)
    (h : (Parse p a ing).outcome = .returned cfg (some e)) :
    cfg = AuthSSLConfig.zero ∧
    ((∃ s, p.GetStringAnnotation annotationAuthTLSSecret ing = (s, some e)) ∨
     (∃ s, p.GetStringAnnotation annotationAuthTLSSecret ing = (s, none) ∧
        (s = "" ∨ (p.ParseNameNS s).2.2 ≠ none) ∧
        e = .NewLocationDenied emptySecretMessage) ∨
     (∃ s c e0, p.GetStringAnnotation annotationAuthTLSSecret ing = (s, none) ∧ s ≠ "" ∧
        (p.ParseNameNS s).2.2 = none ∧
        a.certResolver.GetAuthCertificate s = (c, some e0) ∧
        e = .LocationDenied (.Wrap e0 "error obtaining certificate"))) := by
  rcases hr : p.GetStringAnnotation annotationAuthTLSSecret ing with ⟨s, _ | e1⟩
  · by_cases hs : s = ""
    · subst hs
      rw [Parse_of_empty p a ing hr] at h
      simp only [Outcome.returned.injEq, Option.some.injEq] at h
      exact ⟨h.1.symm, Or.inr (Or.inl ⟨"", rfl, Or.inl rfl, h.2.symm⟩)⟩
    · rcases hp : (p.ParseNameNS s).2.2 with _ | e2
      · rw [Parse_of_valid p a ing s hr hs hp] at h
        rcases hc : a.certResolver.GetAuthCertificate s with ⟨c, _ | e0⟩
        · cases c <;> simp [hc] at h
        · have h2 : (Outcome.returned (AuthSSLConfig.zero : AuthSSLConfig Cert)
              (some (.LocationDenied (.Wrap e0 "error obtaining certificate"))))
              = .returned cfg (some e) := by
            rw [← h, hc]
            cases c <;> rfl
          simp only [Outcome.returned.injEq, Option.some.injEq] at h2
          exact ⟨h2.1.symm, Or.inr (Or.inr ⟨s, c, e0, rfl, hs, hp, hc, h2.2.symm⟩)⟩
      · rw [Parse_of_rejected p a ing s e2 hr hs hp] at h
        simp only [Outcome.returned.injEq, Option.some.injEq] at h
        refine ⟨h.1.symm, Or.inr (Or.inl ⟨s, rfl, Or.inr ?_, h.2.symm⟩)⟩
        rw [hp]; simp
  · rw [Parse_of_read_error p a ing s e1 hr] at h
    simp only [Outcome.returned.injEq, Option.some.injEq] at h
    exact ⟨h.1.symm, Or.inl ⟨s, by rw [h.2]⟩⟩

/-- The run of `Parse` is fixed by the read of the secret key, the read of the
depth key, the identifier parser and the resolver. -/
theorem Parse_congr (p q : Imports Ing) (a : authTLS Cert) (ing ing0 : Ing)
    (hs : q.GetStringAnnotation annotationAuthTLSSecret ing0
      = p.GetStringAnnotation annotationAuthTLSSecret ing)
    (hd : q.GetIntAnnotation annotationAuthTLSDepth ing0
      = p.GetIntAnnotation annotationAuthTLSDepth ing)
    (hn : q.ParseNameNS = p.ParseNameNS) :
    Parse q a ing0 = Parse p a ing := by
  simp only [Parse, hs, hd, hn]

/-- Whether `Parse` returns, and with which error, is fixed by the read of the
secret key, the identifier parser and the resolver. -/
theorem Parse_err_congr (p q : Imports Ing) (a : authTLS Cert) (ing ing0 : Ing)
    (hs : q.GetStringAnnotation annotationAuthTLSSecret ing0
      = p.GetStringAnnotation annotationAuthTLSSecret ing)
    (hn : q.ParseNameNS = p.ParseNameNS) :
    (Parse q a ing0).outcome.err = (Parse p a ing).outcome.err := by
  rcases hr : p.GetStringAnnotation annotationAuthTLSSecret ing with ⟨s, _ | e1⟩
  · have hq := hs.trans hr
    by_cases hs0 : s = ""
    · subst hs0
      rw [Parse_of_empty p a ing hr, Parse_of_empty q a ing0 hq]
    · rcases hp : (p.ParseNameNS s).2.2 with _ | e2
      · have hpq : (q.ParseNameNS s).2.2 = none := by rw [hn]; exact hp
        rw [Parse_of_valid p a ing s hr hs0 hp, Parse_of_valid q a ing0 s hq hs0 hpq]
        rcases a.certResolver.GetAuthCertificate s with ⟨c, _ | e0⟩ <;> cases c <;> rfl
      · have hpq : (q.ParseNameNS s).2.2 = some e2 := by rw [hn]; exact hp
        rw [Parse_of_rejected p a ing s e2 hr hs0 hp, Parse_of_rejected q a ing0 s e2 hq hs0 hpq]
  · have hq := hs.trans hr
    rw [Parse_of_read_error p a ing s e1 hr, Parse_of_read_error q a ing0 s e1 hq]

/-- The list resolver returns a certificate whenever it returns no error. -/
theorem listResolver_some_of_no_error (known : List String) (failure : GoError)
    (name : String) (c : Option CertHandle)
    (h : (listResolver known failure).GetAuthCertificate name = (c, none)) : c ≠ none := by
  simp only [listResolver] at h
  split_ifs at h with hk
  · simp only [Prod.mk.injEq, and_true] at h
    rw [← h]; simp
  · simp at h

/-- The certificates of the list resolver are not the zero value, when the empty
name is not among the known ones. -/
theorem listResolver_cert_ne_default (known : List String) (failure : GoError)
    (hk : "" ∉ known) (name : String) (c : CertHandle)
    (h : (listResolver known failure).GetAuthCertificate name = (some c, none)) :
    c ≠ default := by
  simp only [listResolver] at h
  split_ifs at h with hmem
  · simp only [Prod.mk.injEq, Option.some.injEq, and_true] at h
    intro hc
    rw [← h] at hc
    have : name = "" := congrArg CertHandle.secret hc
    exact hk (this ▸ hmem)
  · simp at h

end Lemmas

/-! ## The claims -/

section Claims

variable {Ing Cert : Type} [Inhabited Cert]

/-- C1: for every ingress and every resolver, if the string read of the
auth-tls-secret annotation returns an error `e`, then `Parse` returns exactly `e`,
not wrapped, together with the zero-value `AuthSSLConfig`. -/
theorem Parse_forwards_secret_read_error (p : Imports Ing) (a : authTLS Cert) (ing : Ing)
    (s : String) (e : GoError)
    (h : p.GetStringAnnotation annotationAuthTLSSecret ing = (s, some e)) :
    (Parse p a ing).outcome = .returned AuthSSLConfig.zero (some e) := by
  rw [Parse_of_read_error p a ing s e h]

/-- Witness for C1: an ingress without the secret annotation. -/
theorem Parse_forwards_secret_read_error_witness :
    specImports.GetStringAnnotation annotationAuthTLSSecret noSecretIngress
        = ("", some AnnotationMissing) ∧
      (Parse specImports (NewParser (listResolver ["mycert"] secretNotFound))
          noSecretIngress).outcome
        = .returned AuthSSLConfig.zero (some AnnotationMissing) :=
  ⟨by decide,
   Parse_forwards_secret_read_error specImports
     (NewParser (listResolver ["mycert"] secretNotFound)) noSecretIngress ""
     AnnotationMissing (by decide)⟩

/-- C2: for every ingress whose auth-tls-secret annotation is read successfully as
the empty string, whatever the resolver and the other annotations, `Parse` fails,
returning the zero-value `AuthSSLConfig` and a `LocationDenied` error made by
`NewLocationDenied` with the message "an empty string is not a valid secret name". -/
theorem Parse_empty_secret_denied (p : Imports Ing) (a : authTLS Cert) (ing : Ing)
    (h : p.GetStringAnnotation annotationAuthTLSSecret ing = ("", none)) :
    ∃ err : GoError,
      (Parse p a ing).outcome = .returned AuthSSLConfig.zero (some err) ∧
      err = .NewLocationDenied "an empty string is not a valid secret name" ∧
      err.isLocationDenied = true ∧
      err.deniedMessage = some "an empty string is not a valid secret name" := by
  refine ⟨.NewLocationDenied "an empty string is not a valid secret name", ?_, rfl, rfl, rfl⟩
  rw [Parse_of_empty p a ing h]
  rfl

/-- Witness for C2: an ingress whose secret annotation is the empty string. -/
theorem Parse_empty_secret_denied_witness :
    specImports.GetStringAnnotation annotationAuthTLSSecret emptySecretIngress = ("", none) ∧
      ∃ err : GoError,
        (Parse specImports (NewParser (listResolver ["mycert"] secretNotFound))
            emptySecretIngress).outcome = .returned AuthSSLConfig.zero (some err) ∧
        err = .NewLocationDenied "an empty string is not a valid secret name" ∧
        err.isLocationDenied = true ∧
        err.deniedMessage = some "an empty string is not a valid secret name" :=
  ⟨by decide,
   Parse_empty_secret_denied specImports (NewParser (listResolver ["mycert"] secretNotFound))
     emptySecretIngress (by decide)⟩

/-- C3: for every ingress whose auth-tls-secret annotation is a non-empty string
that `ParseNameNS` rejects, `Parse` fails with the `LocationDenied` error of the
empty-string case (message "an empty string is not a valid secret name"), whatever
the error of `ParseNameNS` was: its outcome equals the outcome of any run of
`Parse` on an ingress whose secret is read as the empty string. -/
theorem Parse_rejected_secret_denied (p : Imports Ing) (a : authTLS Cert) (ing : Ing)
    (s : String) (e : GoError)
    (h : p.GetStringAnnotation annotationAuthTLSSecret ing = (s, none))
    (hs : s ≠ "") (hp : (p.ParseNameNS s).2.2 = some e) :
    (Parse p a ing).outcome = .returned AuthSSLConfig.zero
        (some (.NewLocationDenied "an empty string is not a valid secret name")) ∧
      (GoError.NewLocationDenied "an empty string is not a valid secret name").isLocationDenied
        = true ∧
      ∀ (q : Imports Ing) (b : authTLS Cert) (ing0 : Ing),
        q.GetStringAnnotation annotationAuthTLSSecret ing0 = ("", none) →
        (Parse p a ing).outcome = (Parse q b ing0).outcome := by
  have hrun := Parse_of_rejected p a ing s e h hs hp
  refine ⟨by rw [hrun]; rfl, rfl, ?_⟩
  intro q b ing0 h0
  rw [hrun, Parse_of_empty q b ing0 h0]

/-- Witness for C3: the secret "a/b/c" has two slashes; the run on it ends as the
run on the empty secret does. -/
theorem Parse_rejected_secret_denied_witness :
    (specImports.GetStringAnnotation annotationAuthTLSSecret malformedSecretIngress
        = ("a/b/c", none) ∧ "a/b/c" ≠ "" ∧
      (specImports.ParseNameNS "a/b/c").2.2 = some (.errorString "invalid format")) ∧
    (Parse specImports (NewParser (listResolver ["a/b/c"] secretNotFound))
        malformedSecretIngress).outcome
      = (Parse specImports (NewParser (listResolver ["a/b/c"] secretNotFound))
          emptySecretIngress).outcome :=
  ⟨⟨by decide, by decide, by decide⟩,
   (Parse_rejected_secret_denied specImports (NewParser (listResolver ["a/b/c"] secretNotFound))
      malformedSecretIngress "a/b/c" (.errorString "invalid format")
      (by decide) (by decide) (by decide)).2.2
      specImports (NewParser (listResolver ["a/b/c"] secretNotFound)) emptySecretIngress
      (by decide)⟩

/-- C4: for every ingress with a valid secret reference for which the resolver
fails with error `e`, `Parse` fails with a `LocationDenied` error whose `Reason`
is `e` wrapped with the context "error obtaining certificate"; `e` is the cause
stored in that `Reason`, and it is on the cause chain of the `Reason`. -/
theorem Parse_resolver_error_wrapped (p : Imports Ing) (a : authTLS Cert) (ing : Ing)
    (s : String) (c : Option Cert) (e : GoError)
    (h : p.GetStringAnnotation annotationAuthTLSSecret ing = (s, none))
    (hs : s ≠ "") (hp : (p.ParseNameNS s).2.2 = none)
    (hr : a.certResolver.GetAuthCertificate s = (c, some e)) :
    ∃ reason : GoError,
      (Parse p a ing).outcome = .returned AuthSSLConfig.zero (some (.LocationDenied reason)) ∧
      (GoError.LocationDenied reason).isLocationDenied = true ∧
      (GoError.LocationDenied reason).Reason = some reason ∧
      reason = .Wrap e "error obtaining certificate" ∧
      reason.wrapMessage = some "error obtaining certificate" ∧
      reason.directCause = some e ∧
      e ∈ reason.causeChain ∧
      reason.Cause = e.Cause := by
  refine ⟨.Wrap e "error obtaining certificate", ?_, rfl, rfl, rfl, rfl, rfl, ?_, ?_⟩
  · rw [Parse_of_valid p a ing s h hs hp, hr]
    cases c <;> rfl
  · cases e <;> simp [GoError.causeChain]
  · simp [GoError.Cause]

/-- Witness for C4: the resolver does not know the secret "ns1/mycert". -/
theorem Parse_resolver_error_wrapped_witness :
    (specImports.GetStringAnnotation annotationAuthTLSSecret exampleIngress
        = ("ns1/mycert", none) ∧ "ns1/mycert" ≠ "" ∧
      (specImports.ParseNameNS "ns1/mycert").2.2 = none ∧
      (NewParser (failingResolver secretNotFound)).certResolver.GetAuthCertificate "ns1/mycert"
        = (none, some secretNotFound)) ∧
    ∃ reason : GoError,
      (Parse specImports (NewParser (failingResolver secretNotFound)) exampleIngress).outcome
        = .returned AuthSSLConfig.zero (some (.LocationDenied reason)) ∧
      (GoError.LocationDenied reason).isLocationDenied = true ∧
      (GoError.LocationDenied reason).Reason = some reason ∧
      reason = .Wrap secretNotFound "error obtaining certificate" ∧
      reason.wrapMessage = some "error obtaining certificate" ∧
      reason.directCause = some secretNotFound ∧
      secretNotFound ∈ reason.causeChain ∧
      reason.Cause = secretNotFound.Cause :=
  ⟨⟨by decide, by decide, by decide, by decide⟩,
   Parse_resolver_error_wrapped specImports (NewParser (failingResolver secretNotFound))
     exampleIngress "ns1/mycert" none secretNotFound
     (by decide) (by decide) (by decide) (by decide)⟩

/-- C5: for every ingress on which `Parse` succeeds, if the integer read of the
auth-tls-verify-depth annotation returns an error or returns the value 0, then
the resulting `AuthSSLConfig` has `ValidationDepth` equal to 1. -/
theorem Parse_default_depth (p : Imports Ing) (a : authTLS Cert) (ing : Ing)
    (cfg : AuthSSLConfig Cert) (d : Int) (derr : Option GoError)
    (hok : (Parse p a ing).outcome = .returned cfg none)
    (hd : p.GetIntAnnotation annotationAuthTLSDepth ing = (d, derr))
    (h : derr ≠ none ∨ d = 0) :
    cfg.ValidationDepth = 1 := by
  obtain ⟨s, cert, _, _, _, _, hcfg⟩ := Parse_success_inv p a ing cfg hok
  rw [hcfg, hd]
  simp only [ne_eq]
  rw [if_pos h]
  rfl

/-- Witness for C5: the depth annotation is absent, so its read fails. -/
theorem Parse_default_depth_witness :
    ((Parse specImports (NewParser (listResolver ["mycert"] secretNotFound))
          secretOnlyIngress).outcome
        = .returned { AuthSSLCert := ⟨"mycert"⟩, ValidationDepth := 1, AuthErrorPage := "mycert" }
            none ∧
      specImports.GetIntAnnotation annotationAuthTLSDepth secretOnlyIngress
        = (0, some AnnotationMissing) ∧
      (some AnnotationMissing ≠ none ∨ (0 : Int) = 0)) ∧
    (AuthSSLConfig.mk (⟨"mycert"⟩ : CertHandle) 1 "mycert").ValidationDepth = 1 :=
  ⟨⟨by decide, by decide, by decide⟩,
   Parse_default_depth specImports (NewParser (listResolver ["mycert"] secretNotFound))
     secretOnlyIngress { AuthSSLCert := ⟨"mycert"⟩, ValidationDepth := 1, AuthErrorPage := "mycert" }
     0 (some AnnotationMissing) (by decide) (by decide) (by decide)⟩

/-- C6: for every ingress on which `Parse` succeeds and whose auth-tls-verify-depth
annotation is read successfully as a nonzero integer `d`, negative values
included, the resulting `AuthSSLConfig` has `ValidationDepth` equal to `d`. -/
theorem Parse_depth_passed_through (p : Imports Ing) (a : authTLS Cert) (ing : Ing)
    (cfg : AuthSSLConfig Cert) (d : Int)
    (hok : (Parse p a ing).outcome = .returned cfg none)
    (hd : p.GetIntAnnotation annotationAuthTLSDepth ing = (d, none))
    (h : d ≠ 0) :
    cfg.ValidationDepth = d := by
  obtain ⟨s, cert, _, _, _, _, hcfg⟩ := Parse_success_inv p a ing cfg hok
  rw [hcfg, hd]
  simp [h]

/-- Witness for C6: the depth annotation "-2" is read as the integer -2. -/
theorem Parse_depth_passed_through_witness :
    ((Parse specImports (NewParser (listResolver ["mycert"] secretNotFound))
          negativeDepthIngress).outcome
        = .returned { AuthSSLCert := ⟨"mycert"⟩, ValidationDepth := -2, AuthErrorPage := "mycert" }
            none ∧
      specImports.GetIntAnnotation annotationAuthTLSDepth negativeDepthIngress = (-2, none) ∧
      (-2 : Int) ≠ 0) ∧
    (AuthSSLConfig.mk (⟨"mycert"⟩ : CertHandle) (-2) "mycert").ValidationDepth = -2 :=
  ⟨⟨by decide, by decide, by decide⟩,
   Parse_depth_passed_through specImports (NewParser (listResolver ["mycert"] secretNotFound))
     negativeDepthIngress
     { AuthSSLCert := ⟨"mycert"⟩, ValidationDepth := -2, AuthErrorPage := "mycert" }
     (-2) (by decide) (by decide) (by decide)⟩

/-- C7, as the claim states it, fails: with the depth annotation "-2" `Parse`
succeeds and returns `ValidationDepth` -2, and with the secret annotation absent
`Parse` returns an error together with an `AuthSSLConfig` whose `ValidationDepth`
is 0. Neither is at least 1. -/
theorem ValidationDepth_positive_counterexample :
    (∃ cfg : AuthSSLConfig CertHandle,
      (Parse specImports (NewParser (listResolver ["mycert"] secretNotFound))
          negativeDepthIngress).outcome = .returned cfg none ∧
      cfg.ValidationDepth = -2 ∧ ¬ 1 ≤ cfg.ValidationDepth) ∧
    (∃ cfg : AuthSSLConfig CertHandle,
      (Parse specImports (NewParser (listResolver ["mycert"] secretNotFound))
          noSecretIngress).outcome = .returned cfg (some AnnotationMissing) ∧
      cfg.ValidationDepth = 0 ∧ ¬ 1 ≤ cfg.ValidationDepth) :=
  ⟨⟨{ AuthSSLCert := ⟨"mycert"⟩, ValidationDepth := -2, AuthErrorPage := "mycert" },
      by decide, rfl, by decide⟩,
   ⟨AuthSSLConfig.zero, by decide, rfl, by decide⟩⟩

/-- C7, amended: in every `AuthSSLConfig` that `Parse` returns without an error,
`ValidationDepth` is never zero, and it is at least 1 whenever the read of the
auth-tls-verify-depth annotation fails or gives a non-negative integer; a negative
integer read from the annotation is returned as it is. The `AuthSSLConfig` that
`Parse` returns together with an error has `ValidationDepth` 0. -/
theorem ValidationDepth_nonzero_on_success (p : Imports Ing) (a : authTLS Cert) (ing : Ing)
    (cfg : AuthSSLConfig Cert) (err : Option GoError)
    (hret : (Parse p a ing).outcome = .returned cfg err) :
    (err = none →
      cfg.ValidationDepth ≠ 0 ∧
      ((p.GetIntAnnotation annotationAuthTLSDepth ing).2 ≠ none ∨
          0 ≤ (p.GetIntAnnotation annotationAuthTLSDepth ing).1 → 1 ≤ cfg.ValidationDepth) ∧
      ((p.GetIntAnnotation annotationAuthTLSDepth ing).2 = none ∧
          (p.GetIntAnnotation annotationAuthTLSDepth ing).1 < 0 →
        cfg.ValidationDepth = (p.GetIntAnnotation annotationAuthTLSDepth ing).1)) ∧
    (err ≠ none → cfg.ValidationDepth = 0) := by
  constructor
  · intro hnone
    subst hnone
    obtain ⟨s, cert, _, _, _, _, hcfg⟩ := Parse_success_inv p a ing cfg hret
    rw [hcfg]
    simp only [defaultAuthTLSDepth]
    refine ⟨?_, ?_, ?_⟩
    · split_ifs with hc
      · decide
      · exact fun h0 => hc (Or.inr h0)
    · intro hpos
      split_ifs with hc
      · decide
      · rcases hpos with hp | hp
        · exact absurd (Or.inl hp) hc
        · have : (p.GetIntAnnotation annotationAuthTLSDepth ing).1 ≠ 0 :=
            fun h0 => hc (Or.inr h0)
          omega
    · rintro ⟨he, hneg⟩
      rw [if_neg]
      rintro (hc | hc)
      · exact hc he
      · omega
  · intro hne
    rcases hr : p.GetStringAnnotation annotationAuthTLSSecret ing with ⟨s, _ | e⟩
    · by_cases hs : s = ""
      · subst hs
        rw [Parse_of_empty p a ing hr] at hret
        simp only [Outcome.returned.injEq] at hret
        rw [← hret.1]; rfl
      · rcases hp : (p.ParseNameNS s).2.2 with _ | e
        · rw [Parse_of_valid p a ing s hr hs hp] at hret
          rcases hc : a.certResolver.GetAuthCertificate s with ⟨c, _ | e⟩
          · cases c with
            | none => simp [hc] at hret
            | some cert =>
              simp only [hc, Outcome.returned.injEq] at hret
              exact absurd hret.2.symm hne
          · cases c <;>
            · simp only [hc, Outcome.returned.injEq] at hret
              rw [← hret.1]; rfl
        · rw [Parse_of_rejected p a ing s e hr hs hp] at hret
          simp only [Outcome.returned.injEq] at hret
          rw [← hret.1]; rfl
    · rw [Parse_of_read_error p a ing s e hr] at hret
      simp only [Outcome.returned.injEq] at hret
      rw [← hret.1]; rfl

/-- Witness for C7, amended: the run on the depth annotation "-2". -/
theorem ValidationDepth_nonzero_on_success_witness :
    (Parse specImports (NewParser (listResolver ["mycert"] secretNotFound))
        negativeDepthIngress).outcome
      = .returned { AuthSSLCert := ⟨"mycert"⟩, ValidationDepth := -2, AuthErrorPage := "mycert" }
          none ∧
    (AuthSSLConfig.mk (⟨"mycert"⟩ : CertHandle) (-2) "mycert").ValidationDepth ≠ 0 :=
  ⟨by decide,
   ((ValidationDepth_nonzero_on_success specImports
      (NewParser (listResolver ["mycert"] secretNotFound)) negativeDepthIngress
      { AuthSSLCert := ⟨"mycert"⟩, ValidationDepth := -2, AuthErrorPage := "mycert" } none
      (by decide)).1 rfl).1⟩

/-- C8, evaluated on the end-to-end example: the ingress carries the secret
"ns1/mycert", the depth "3" and the error page "/403.html", and the resolver
knows the secret. `Parse` succeeds with `ValidationDepth` 3, but `AuthErrorPage`
is the secret "ns1/mycert", not the value "/403.html" of the auth-tls-error-page
annotation, since the error page is read under the key of the secret. -/
theorem Parse_error_page_example :
    specImports.GetStringAnnotation annotationAuthTLSErrorpage exampleIngress
      = ("/403.html", none) ∧
    (Parse specImports (NewParser (listResolver ["ns1/mycert"] secretNotFound))
        exampleIngress).outcome
      = .returned { AuthSSLCert := ⟨"ns1/mycert"⟩, ValidationDepth := 3,
                    AuthErrorPage := "ns1/mycert" } none ∧
    (AuthSSLConfig.mk (⟨"ns1/mycert"⟩ : CertHandle) 3 "ns1/mycert").AuthErrorPage
      ≠ "/403.html" :=
  ⟨by decide, by decide, by decide⟩

/-- C9, evaluated on the example with the secret "mycert" alone: `Parse` succeeds
with `ValidationDepth` 1, but `AuthErrorPage` is the secret "mycert" and not the
empty string, since the error page is read under the key of the secret. -/
theorem Parse_secret_only_example :
    lookupKey annotationAuthTLSDepth secretOnlyIngress = none ∧
    lookupKey annotationAuthTLSErrorpage secretOnlyIngress = none ∧
    (Parse specImports (NewParser (listResolver ["mycert"] secretNotFound))
        secretOnlyIngress).outcome
      = .returned { AuthSSLCert := ⟨"mycert"⟩, ValidationDepth := 1, AuthErrorPage := "mycert" }
          none ∧
    (AuthSSLConfig.mk (⟨"mycert"⟩ : CertHandle) 1 "mycert").AuthErrorPage ≠ "" :=
  ⟨by decide, by decide, by decide, by decide⟩

/-- C10: for every ingress whose secret reference cannot be read, is the empty
string, or is rejected by `ParseNameNS`, `Parse` returns without calling the
certificate resolver: the list of resolver calls is empty, so their number is
zero, and the run of `Parse` is the same for every resolver. -/
theorem Parse_bad_secret_no_resolver_call (p : Imports Ing) (a : authTLS Cert) (ing : Ing)
    (h : (p.GetStringAnnotation annotationAuthTLSSecret ing).2 ≠ none ∨
      (p.GetStringAnnotation annotationAuthTLSSecret ing).1 = "" ∨
      (p.ParseNameNS (p.GetStringAnnotation annotationAuthTLSSecret ing).1).2.2 ≠ none) :
    (Parse p a ing).resolverCalls = [] ∧
    (Parse p a ing).resolverCalls.length = 0 ∧
    ∀ b : authTLS Cert, Parse p b ing = Parse p a ing := by
  have key : ∃ run : ParseRun Cert, run.resolverCalls = [] ∧
      ∀ b : authTLS Cert, Parse p b ing = run := by
    rcases hr : p.GetStringAnnotation annotationAuthTLSSecret ing with ⟨s, _ | e⟩
    · rw [hr] at h
      by_cases hs : s = ""
      · subst hs
        exact ⟨_, rfl, fun b => Parse_of_empty p b ing hr⟩
      · rcases hp : (p.ParseNameNS s).2.2 with _ | e
        · rcases h with h | h | h
          · exact absurd rfl h
          · exact absurd h hs
          · exact absurd hp h
        · exact ⟨_, rfl, fun b => Parse_of_rejected p b ing s e hr hs hp⟩
    · exact ⟨_, rfl, fun b => Parse_of_read_error p b ing s e hr⟩
  obtain ⟨run, hcalls, hrun⟩ := key
  refine ⟨by rw [hrun a]; exact hcalls, by rw [hrun a, hcalls]; rfl, ?_⟩
  intro b
  rw [hrun a, hrun b]

/-- Witness for C10: on the ingress with the empty secret, a resolver that knows
"mycert" and a resolver that fails on every name give the same run, without a
call. -/
theorem Parse_bad_secret_no_resolver_call_witness :
    ((specImports.GetStringAnnotation annotationAuthTLSSecret emptySecretIngress).2 ≠ none ∨
      (specImports.GetStringAnnotation annotationAuthTLSSecret emptySecretIngress).1 = "" ∨
      (specImports.ParseNameNS
        (specImports.GetStringAnnotation annotationAuthTLSSecret emptySecretIngress).1).2.2
          ≠ none) ∧
    (Parse specImports (NewParser (listResolver ["mycert"] secretNotFound))
        emptySecretIngress).resolverCalls.length = 0 ∧
    Parse specImports (NewParser (failingResolver secretNotFound)) emptySecretIngress
      = Parse specImports (NewParser (listResolver ["mycert"] secretNotFound))
          emptySecretIngress :=
  ⟨by decide,
   (Parse_bad_secret_no_resolver_call specImports
      (NewParser (listResolver ["mycert"] secretNotFound)) emptySecretIngress (by decide)).2.1,
   (Parse_bad_secret_no_resolver_call specImports
      (NewParser (listResolver ["mycert"] secretNotFound)) emptySecretIngress (by decide)).2.2
      (NewParser (failingResolver secretNotFound))⟩

/-- C11: for every ingress and resolver, whenever `Parse` returns a non-nil error
the `AuthSSLConfig` returned with it is the zero value: empty certificate,
`ValidationDepth` 0 and empty `AuthErrorPage`. -/
theorem Parse_error_gives_zero_config (p : Imports Ing) (a : authTLS Cert) (ing : Ing)
    (cfg : AuthSSLConfig Cert) (e : GoError)
    (h : (Parse p a ing).outcome = .returned cfg (some e)) :
    cfg = AuthSSLConfig.zero ∧ cfg.AuthSSLCert = default ∧ cfg.ValidationDepth = 0 ∧
      cfg.AuthErrorPage = "" := by
  have hz := (Parse_error_inv p a ing cfg e h).1
  subst hz
  exact ⟨rfl, rfl, rfl, rfl⟩

/-- Witness for C11: the resolver fails after the depth "3" has been read; the
returned configuration carries neither the depth nor the secret. -/
theorem Parse_error_gives_zero_config_witness :
    (Parse specImports (NewParser (failingResolver secretNotFound)) exampleIngress).outcome
      = .returned { AuthSSLCert := ⟨""⟩, ValidationDepth := 0, AuthErrorPage := "" }
          (some (.LocationDenied (.Wrap secretNotFound "error obtaining certificate"))) ∧
    ((AuthSSLConfig.mk (⟨""⟩ : CertHandle) 0 "") = AuthSSLConfig.zero ∧
      (AuthSSLConfig.mk (⟨""⟩ : CertHandle) 0 "").AuthSSLCert = default ∧
      (AuthSSLConfig.mk (⟨""⟩ : CertHandle) 0 "").ValidationDepth = 0 ∧
      (AuthSSLConfig.mk (⟨""⟩ : CertHandle) 0 "").AuthErrorPage = "") :=
  ⟨by decide,
   Parse_error_gives_zero_config specImports (NewParser (failingResolver secretNotFound))
     exampleIngress { AuthSSLCert := ⟨""⟩, ValidationDepth := 0, AuthErrorPage := "" }
     (.LocationDenied (.Wrap secretNotFound "error obtaining certificate")) (by decide)⟩

/-- C12, as the claim states it, fails: with a resolver that returns a pointer to
the zero-value certificate and no error, `Parse` returns no error and the
certificate field of the result is empty. -/
theorem AuthSSLCert_present_iff_counterexample :
    ∃ cfg : AuthSSLConfig CertHandle,
      (Parse specImports (NewParser blankResolver) secretOnlyIngress).outcome
        = .returned cfg none ∧
      cfg.AuthSSLCert = default ∧
      ¬ (cfg.AuthSSLCert ≠ default ↔ (none : Option GoError) = none) :=
  ⟨{ AuthSSLCert := ⟨""⟩, ValidationDepth := 1, AuthErrorPage := "mycert" },
    by decide, rfl, by decide⟩

/-- C12, amended: if the certificate field of the `AuthSSLConfig` returned by
`Parse` is not empty, then `Parse` returned no error; when `Parse` returns no
error, the field is the certificate that the resolver returned for the one name
it was called with; so, for a resolver that never returns an empty certificate
without an error, the field is not empty if and only if `Parse` returned no
error. -/
theorem AuthSSLCert_present_iff_of_resolver (p : Imports Ing) (a : authTLS Cert) (ing : Ing)
    (cfg : AuthSSLConfig Cert) (err : Option GoError)
    (hret : (Parse p a ing).outcome = .returned cfg err) :
    (cfg.AuthSSLCert ≠ default → err = none) ∧
    (err = none → ∃ s, (Parse p a ing).resolverCalls = [s] ∧
      a.certResolver.GetAuthCertificate s = (some cfg.AuthSSLCert, none)) ∧
    ((∀ name c, a.certResolver.GetAuthCertificate name = (some c, none) → c ≠ default) →
      (cfg.AuthSSLCert ≠ default ↔ err = none)) := by
  have hfwd : cfg.AuthSSLCert ≠ default → err = none := by
    intro hne
    cases err with
    | none => rfl
    | some e =>
      have hz := (Parse_error_inv p a ing cfg e hret).1
      exact absurd (by rw [hz]; rfl) hne
  have hres : err = none → ∃ s, (Parse p a ing).resolverCalls = [s] ∧
      a.certResolver.GetAuthCertificate s = (some cfg.AuthSSLCert, none) := by
    intro hnone
    subst hnone
    obtain ⟨s, cert, hr, hs, hp, hc, hcfg⟩ := Parse_success_inv p a ing cfg hret
    refine ⟨s, ?_, ?_⟩
    · rw [Parse_of_valid p a ing s hr hs hp, hc]
    · rw [hcfg]; exact hc
  refine ⟨hfwd, hres, fun hpre => ⟨hfwd, fun hnone => ?_⟩⟩
  obtain ⟨s, _, hc⟩ := hres hnone
  exact hpre s cfg.AuthSSLCert hc

/-- Witness for C12, amended: a resolver whose certificates are never empty. -/
theorem AuthSSLCert_present_iff_of_resolver_witness :
    (Parse specImports (NewParser (listResolver ["mycert"] secretNotFound))
        secretOnlyIngress).outcome
      = .returned { AuthSSLCert := ⟨"mycert"⟩, ValidationDepth := 1, AuthErrorPage := "mycert" }
          none ∧
    ((AuthSSLConfig.mk (⟨"mycert"⟩ : CertHandle) 1 "mycert").AuthSSLCert ≠ default ↔
      (none : Option GoError) = none) :=
  ⟨by decide,
   (AuthSSLCert_present_iff_of_resolver specImports
      (NewParser (listResolver ["mycert"] secretNotFound)) secretOnlyIngress
      { AuthSSLCert := ⟨"mycert"⟩, ValidationDepth := 1, AuthErrorPage := "mycert" } none
      (by decide)).2.2
      (listResolver_cert_ne_default ["mycert"] secretNotFound (by decide))⟩

/-- C13: for every ingress on which `Parse` reaches the resolver, the resolver is
called once, with exactly the string read from the auth-tls-secret annotation,
and on success the `AuthSSLCert` of the result is the certificate that the
resolver returned for that string. -/
theorem Parse_resolver_called_with_raw_secret (p : Imports Ing) (a : authTLS Cert) (ing : Ing)
    (hreach : (Parse p a ing).resolverCalls ≠ []) :
    (Parse p a ing).resolverCalls = [(p.GetStringAnnotation annotationAuthTLSSecret ing).1] ∧
    ∀ cfg : AuthSSLConfig Cert, (Parse p a ing).outcome = .returned cfg none →
      a.certResolver.GetAuthCertificate (p.GetStringAnnotation annotationAuthTLSSecret ing).1
        = (some cfg.AuthSSLCert, none) := by
  rcases hr : p.GetStringAnnotation annotationAuthTLSSecret ing with ⟨s, _ | e1⟩
  · by_cases hs : s = ""
    · subst hs
      rw [Parse_of_empty p a ing hr] at hreach
      exact absurd rfl hreach
    · rcases hp : (p.ParseNameNS s).2.2 with _ | e2
      · constructor
        · rw [Parse_of_valid p a ing s hr hs hp]
          rcases a.certResolver.GetAuthCertificate s with ⟨c, _ | e0⟩ <;> cases c <;> rfl
        · intro cfg hok
          obtain ⟨s0, cert, hr0, _, _, hc, hcfg⟩ := Parse_success_inv p a ing cfg hok
          have hs0 : s0 = s := by
            have := hr0.symm.trans hr
            exact (Prod.mk.inj this).1
          subst hs0
          rw [hcfg]; exact hc
      · rw [Parse_of_rejected p a ing s e2 hr hs hp] at hreach
        exact absurd rfl hreach
  · rw [Parse_of_read_error p a ing s e1 hr] at hreach
    exact absurd rfl hreach

/-- Witness for C13: the identifier parser splits "ns1/mycert" into "ns1" and
"mycert", and the resolver is called with "ns1/mycert". -/
theorem Parse_resolver_called_with_raw_secret_witness :
    (specImports.ParseNameNS "ns1/mycert" = ("ns1", "mycert", none) ∧
      (Parse specImports (NewParser (listResolver ["ns1/mycert"] secretNotFound))
        exampleIngress).resolverCalls ≠ []) ∧
    (Parse specImports (NewParser (listResolver ["ns1/mycert"] secretNotFound))
        exampleIngress).resolverCalls
      = [(specImports.GetStringAnnotation annotationAuthTLSSecret exampleIngress).1] ∧
    (specImports.GetStringAnnotation annotationAuthTLSSecret exampleIngress).1 = "ns1/mycert" :=
  ⟨⟨by decide, by decide⟩,
   (Parse_resolver_called_with_raw_secret specImports
      (NewParser (listResolver ["ns1/mycert"] secretNotFound)) exampleIngress (by decide)).1,
   by decide⟩

/-- C14: `Parse` reads the error page with the key of the secret annotation. For
every ingress on which `Parse` succeeds, the resulting `AuthErrorPage` is the
string read from the auth-tls-secret annotation, which is the string the
resolver was called with; it is never empty; and it does not depend on the
auth-tls-error-page annotation: any reader and ingress that give the same read
of the secret key, with the same identifier parser, give a successful run with
the same `AuthErrorPage`. The annotation reader is a function of the key and the
ingress. -/
theorem Parse_error_page_is_secret (p : Imports Ing) (a : authTLS Cert) (ing : Ing)
    (cfg : AuthSSLConfig Cert)
    (hok : (Parse p a ing).outcome = .returned cfg none) :
    cfg.AuthErrorPage = (p.GetStringAnnotation annotationAuthTLSSecret ing).1 ∧
    (Parse p a ing).resolverCalls = [cfg.AuthErrorPage] ∧
    cfg.AuthErrorPage ≠ "" ∧
    ∀ (q : Imports Ing) (ing0 : Ing),
      q.GetStringAnnotation annotationAuthTLSSecret ing0
        = p.GetStringAnnotation annotationAuthTLSSecret ing →
      q.ParseNameNS = p.ParseNameNS →
      ∃ cfg0 : AuthSSLConfig Cert, (Parse q a ing0).outcome = .returned cfg0 none ∧
        cfg0.AuthErrorPage = cfg.AuthErrorPage := by
  obtain ⟨s, cert, hr, hs, hp, hc, hcfg⟩ := Parse_success_inv p a ing cfg hok
  have hpage : cfg.AuthErrorPage = s := by rw [hcfg]
  refine ⟨by rw [hpage, hr], ?_, by rw [hpage]; exact hs, ?_⟩
  · rw [hpage, Parse_of_valid p a ing s hr hs hp, hc]
  · intro q ing0 hq hn
    have hq0 := hq.trans hr
    have hpq : (q.ParseNameNS s).2.2 = none := by rw [hn]; exact hp
    rw [Parse_of_valid q a ing0 s hq0 hs hpq, hc]
    exact ⟨_, rfl, hpage.symm⟩

/-- Witness for C14: the ingress with the error page "/403.html" and the ingress
with the error page "/denied.html" both give the `AuthErrorPage` "ns1/mycert". -/
theorem Parse_error_page_is_secret_witness :
    (Parse specImports (NewParser (listResolver ["ns1/mycert"] secretNotFound))
        exampleIngress).outcome
      = .returned { AuthSSLCert := ⟨"ns1/mycert"⟩, ValidationDepth := 3,
                    AuthErrorPage := "ns1/mycert" } none ∧
    specImports.GetStringAnnotation annotationAuthTLSErrorpage deniedPageIngress
      = ("/denied.html", none) ∧
    ∃ cfg0 : AuthSSLConfig CertHandle,
      (Parse specImports (NewParser (listResolver ["ns1/mycert"] secretNotFound))
        deniedPageIngress).outcome = .returned cfg0 none ∧
      cfg0.AuthErrorPage
        = (AuthSSLConfig.mk (⟨"ns1/mycert"⟩ : CertHandle) 3 "ns1/mycert").AuthErrorPage :=
  ⟨by decide, by decide,
   (Parse_error_page_is_secret specImports
      (NewParser (listResolver ["ns1/mycert"] secretNotFound)) exampleIngress
      { AuthSSLCert := ⟨"ns1/mycert"⟩, ValidationDepth := 3, AuthErrorPage := "ns1/mycert" }
      (by decide)).2.2.2 specImports deniedPageIngress (by decide) rfl⟩

/-- C15: the annotation reader being a function of the key and the ingress,
`Parse` succeeds if and only if the read of the auth-tls-secret annotation
succeeds with a non-empty string, the identifier parser accepts that string, and
the resolver returns a certificate and no error for it. Whether `Parse` returns,
and with which error, is the same for any reader and ingress that give the same
read of the secret key, with the same identifier parser: the depth annotation and
the auth-tls-error-page annotation have no part in it. Once the resolver has
returned no error, `Parse` returns no error: the error return after the second
read of the annotation is never taken. -/
theorem Parse_succeeds_iff (p : Imports Ing) (a : authTLS Cert) (ing : Ing) :
    ((∃ cfg : AuthSSLConfig Cert, (Parse p a ing).outcome = .returned cfg none) ↔
      ∃ s cert, p.GetStringAnnotation annotationAuthTLSSecret ing = (s, none) ∧ s ≠ "" ∧
        (p.ParseNameNS s).2.2 = none ∧
        a.certResolver.GetAuthCertificate s = (some cert, none)) ∧
    (∀ (q : Imports Ing) (ing0 : Ing),
      q.GetStringAnnotation annotationAuthTLSSecret ing0
        = p.GetStringAnnotation annotationAuthTLSSecret ing →
      q.ParseNameNS = p.ParseNameNS →
      (Parse q a ing0).outcome.err = (Parse p a ing).outcome.err) ∧
    (∀ (s : String) (c : Option Cert),
      p.GetStringAnnotation annotationAuthTLSSecret ing = (s, none) → s ≠ "" →
      (p.ParseNameNS s).2.2 = none →
      a.certResolver.GetAuthCertificate s = (c, none) →
      ∀ (cfg : AuthSSLConfig Cert) (e : GoError),
        (Parse p a ing).outcome ≠ .returned cfg (some e)) := by
  refine ⟨⟨?_, ?_⟩, ?_, ?_⟩
  · rintro ⟨cfg, hok⟩
    obtain ⟨s, cert, hr, hs, hp, hc, _⟩ := Parse_success_inv p a ing cfg hok
    exact ⟨s, cert, hr, hs, hp, hc⟩
  · rintro ⟨s, cert, hr, hs, hp, hc⟩
    rw [Parse_of_valid p a ing s hr hs hp, hc]
    exact ⟨_, rfl⟩
  · intro q ing0 hq hn
    exact Parse_err_congr p q a ing ing0 hq hn
  · intro s c hr hs hp hc cfg e hret
    rw [Parse_of_valid p a ing s hr hs hp, hc] at hret
    cases c <;> simp at hret

/-- C16: `Parse` dereferences the certificate pointer of the resolver without a
nil check. For a resolver that returns a non-nil certificate whenever it returns
no error, `Parse` returns on every ingress and never stops at the dereference.
For a resolver that returns the nil certificate and no error for a secret that
passed the checks, `Parse` stops at the dereference. -/
theorem Parse_nil_dereference (p : Imports Ing) (a : authTLS Cert) (ing : Ing)
    (hpre : ∀ (name : String) (c : Option Cert),
      a.certResolver.GetAuthCertificate name = (c, none) → c ≠ none) :
    ((Parse p a ing).outcome ≠ .nilDereference ∧
      ∃ (cfg : AuthSSLConfig Cert) (err : Option GoError),
        (Parse p a ing).outcome = .returned cfg err) ∧
    ∀ (b : authTLS Cert) (s : String),
      p.GetStringAnnotation annotationAuthTLSSecret ing = (s, none) → s ≠ "" →
      (p.ParseNameNS s).2.2 = none →
      b.certResolver.GetAuthCertificate s = (none, none) →
      (Parse p b ing).outcome = .nilDereference := by
  constructor
  · have hex : ∃ (cfg : AuthSSLConfig Cert) (err : Option GoError),
        (Parse p a ing).outcome = .returned cfg err := by
      rcases hr : p.GetStringAnnotation annotationAuthTLSSecret ing with ⟨s, _ | e1⟩
      · by_cases hs : s = ""
        · subst hs
          rw [Parse_of_empty p a ing hr]
          exact ⟨_, _, rfl⟩
        · rcases hp : (p.ParseNameNS s).2.2 with _ | e2
          · rw [Parse_of_valid p a ing s hr hs hp]
            rcases hc : a.certResolver.GetAuthCertificate s with ⟨c, _ | e0⟩
            · cases c with
              | none => exact absurd rfl (hpre s none hc)
              | some cert => exact ⟨_, _, rfl⟩
            · cases c <;> exact ⟨_, _, rfl⟩
          · rw [Parse_of_rejected p a ing s e2 hr hs hp]
            exact ⟨_, _, rfl⟩
      · rw [Parse_of_read_error p a ing s e1 hr]
        exact ⟨_, _, rfl⟩
    refine ⟨?_, hex⟩
    obtain ⟨cfg, err, h⟩ := hex
    rw [h]
    simp
  · intro b s hr hs hp hc
    rw [Parse_of_valid p b ing s hr hs hp, hc]

/-- Witness for C16: the list resolver fulfils the precondition and `Parse`
returns; with the resolver that returns nil and no error, `Parse` stops at the
dereference. -/
theorem Parse_nil_dereference_witness :
    (∀ (name : String) (c : Option CertHandle),
      (NewParser (listResolver ["ns1/mycert"] secretNotFound)).certResolver.GetAuthCertificate
        name = (c, none) → c ≠ none) ∧
    (Parse specImports (NewParser (listResolver ["ns1/mycert"] secretNotFound))
        exampleIngress).outcome ≠ .nilDereference ∧
    (Parse specImports (NewParser nilResolver) exampleIngress).outcome = .nilDereference :=
  ⟨listResolver_some_of_no_error ["ns1/mycert"] secretNotFound,
   (Parse_nil_dereference specImports (NewParser (listResolver ["ns1/mycert"] secretNotFound))
      exampleIngress (listResolver_some_of_no_error ["ns1/mycert"] secretNotFound)).1.1,
   (Parse_nil_dereference specImports (NewParser (listResolver ["ns1/mycert"] secretNotFound))
      exampleIngress (listResolver_some_of_no_error ["ns1/mycert"] secretNotFound)).2
      (NewParser nilResolver) "ns1/mycert" (by decide) (by decide) (by decide) (by decide)⟩

end Claims

end AuthTLS

